import Mathlib

/-
Verification of the blitz auth client (`packages/blitz-auth/src/client/index.tsx`)
against its natural-language specification.

The embedding below models:
* the token codec `parsePublicDataToken` (base64 of UTF-8 bytes of a JSON
  document, as produced by the `fromBase64` of `b64-lite` and `JSON.parse`);
* the `PublicDataStore` class (cookie + localStorage dual storage, the
  cross-tab broadcast key, and the subscriber notifications of the observable);
* the anti-CSRF helpers `getAntiCSRFToken` / `backupAntiCSRFTokenToLocalStorage`;
* the authorization gate `useAuthorizeIf` / `authorizeRole`;
* the declarative-rule lookup `getAuthValues`.

Browser state (cookies, localStorage) is modelled as explicit key-value maps.
JavaScript exceptions are modelled as `Except`/`Option` results; a `try`/`catch`
in the source becomes an explicit match on the error case.  JavaScript string
truthiness (`undefined` and `""` are falsy) is modelled explicitly.
-/

/-! ## Key-value maps (model of `document.cookie` and `window.localStorage`) -/

/-- Lookup in an association list of string keys (first binding wins). -/
def kvGet (k : String) : List (String × String) → Option String
  | [] => none
  | (k2, v) :: rest => if k2 = k then some v else kvGet k rest

/-- Set a key in an association list, replacing any existing binding. -/
def kvSet (k v : String) : List (String × String) → List (String × String)
  | [] => [(k, v)]
  | (k2, v2) :: rest => if k2 = k then (k, v) :: rest else (k2, v2) :: kvSet k v rest

/-- Remove all bindings of a key from an association list. -/
def kvRemove (k : String) : List (String × String) → List (String × String)
  | [] => []
  | (k2, v2) :: rest => if k2 = k then kvRemove k rest else (k2, v2) :: kvRemove k rest

theorem kvGet_kvSet_self (k v : String) (l : List (String × String)) :
    kvGet k (kvSet k v l) = some v := by
  induction l with
  | nil => simp [kvSet, kvGet]
  | cons hd tl ih =>
    obtain ⟨k2, v2⟩ := hd
    by_cases h : k2 = k <;> simp [kvSet, kvGet, h, ih]

theorem kvGet_kvSet_ne (k k2 v : String) (l : List (String × String)) (h : k2 ≠ k) :
    kvGet k (kvSet k2 v l) = kvGet k l := by
  induction l with
  | nil => simp [kvSet, kvGet, h]
  | cons hd tl ih =>
    obtain ⟨k3, v3⟩ := hd
    by_cases h3 : k3 = k2 <;> by_cases h4 : k3 = k <;>
      simp_all [kvSet, kvGet]

theorem kvGet_kvRemove_self (k : String) (l : List (String × String)) :
    kvGet k (kvRemove k l) = none := by
  induction l with
  | nil => simp [kvRemove, kvGet]
  | cons hd tl ih =>
    obtain ⟨k2, v2⟩ := hd
    by_cases h : k2 = k <;> simp [kvRemove, kvGet, h, ih]

theorem kvGet_kvRemove_ne (k k2 : String) (l : List (String × String)) (h : k2 ≠ k) :
    kvGet k (kvRemove k2 l) = kvGet k l := by
  induction l with
  | nil => simp [kvRemove, kvGet]
  | cons hd tl ih =>
    obtain ⟨k3, v3⟩ := hd
    by_cases h3 : k3 = k2 <;> by_cases h4 : k3 = k <;>
      simp_all [kvRemove, kvGet]

/-! ## JavaScript values and truthiness -/

/-- The values a JavaScript `JSON.parse` call can produce.  Numbers are
restricted to the decimal naturals that occur in `PublicData` records. -/
inductive Json where
  | null : Json
  | bool (b : Bool) : Json
  | num (n : Nat) : Json
  | str (s : String) : Json
  | arr (items : List Json) : Json
  | obj (members : List (String × Json)) : Json

/-- JavaScript truthiness of an optional string (`undefined`, `null` and
`""` are falsy; every other string is truthy). -/
def jsTruthyStr : Option String → Bool
  | none => false
  | some s => s ≠ ""

/-! ## Decimal numerals (model of `JSON.stringify`/`JSON.parse` on naturals) -/

/-- The decimal digit character for a value below ten. -/
def digitCh (d : Nat) : Char := Char.ofNat (48 + d)

/-- Is a character a decimal digit? -/
def isDigitCh (c : Char) : Bool := decide (48 ≤ c.toNat) && decide (c.toNat ≤ 57)

/-- Fuel-indexed decimal printer (the fuel only bounds the digit count and
is chosen large enough in `printNat`). -/
def printNatAux : Nat → Nat → List Char
  | 0, _ => []
  | fuel + 1, n =>
    if n < 10 then [digitCh n] else printNatAux fuel (n / 10) ++ [digitCh (n % 10)]

/-- Decimal representation of a natural, most significant digit first
(mirrors JavaScript `String(n)` for naturals). -/
def printNat (n : Nat) : List Char := printNatAux (n + 1) n

/-- Consume a maximal run of decimal digits, accumulating their value. -/
def parseNatAux : List Char → Nat → Nat × List Char
  | c :: cs, acc =>
    if isDigitCh c then parseNatAux cs (acc * 10 + (c.toNat - 48)) else (acc, c :: cs)
  | [], acc => (acc, [])

theorem digitCh_toNat (d : Nat) (h : d < 10) : (digitCh d).toNat = 48 + d := by
  interval_cases d <;> decide

theorem isDigitCh_digitCh (d : Nat) (h : d < 10) : isDigitCh (digitCh d) = true := by
  interval_cases d <;> decide

theorem printNatAux_all_digits :
    ∀ (fuel n : Nat), n < fuel → ∀ c ∈ printNatAux fuel n, isDigitCh c = true := by
  intro fuel
  induction fuel with
  | zero => intro n h; omega
  | succ fuel ih =>
    intro n h c hc
    rw [printNatAux] at hc
    by_cases h10 : n < 10
    · rw [if_pos h10] at hc
      simp only [List.mem_singleton] at hc
      subst hc
      exact isDigitCh_digitCh n h10
    · rw [if_neg h10] at hc
      rcases List.mem_append.mp hc with h1 | h1
      · exact ih (n / 10) (by omega) c h1
      · simp only [List.mem_singleton] at h1
        subst h1
        exact isDigitCh_digitCh (n % 10) (by omega)

theorem printNat_all_digits (n : Nat) : ∀ c ∈ printNat n, isDigitCh c = true :=
  printNatAux_all_digits (n + 1) n (Nat.lt_succ_self n)

theorem printNatAux_ne_nil (fuel n : Nat) (h : 0 < fuel) : printNatAux fuel n ≠ [] := by
  match fuel, h with
  | fuel + 1, _ =>
    rw [printNatAux]
    by_cases h10 : n < 10 <;> simp [h10]

theorem printNat_ne_nil (n : Nat) : printNat n ≠ [] :=
  printNatAux_ne_nil (n + 1) n (by omega)

/-- Digit runs parse by folding; stops at the first non-digit. -/
theorem parseNatAux_digits_append (ds rest : List Char) (acc : Nat)
    (hds : ∀ c ∈ ds, isDigitCh c = true)
    (hrest : ∀ c cs, rest = c :: cs → isDigitCh c = false) :
    parseNatAux (ds ++ rest) acc
      = (ds.foldl (fun a c => a * 10 + (c.toNat - 48)) acc, rest) := by
  induction ds generalizing acc with
  | nil =>
    simp only [List.nil_append, List.foldl_nil]
    cases rest with
    | nil => rfl
    | cons c cs => simp [parseNatAux, hrest c cs rfl]
  | cons c cs ih =>
    have hc : isDigitCh c = true := hds c (List.mem_cons_self c cs)
    simp only [List.cons_append, parseNatAux, hc, if_pos, List.foldl_cons]
    exact ih _ (fun d hd => hds d (List.mem_cons_of_mem c hd))

theorem foldl_printNatAux :
    ∀ (fuel n acc : Nat), n < fuel →
      (printNatAux fuel n).foldl (fun a c => a * 10 + (c.toNat - 48)) acc
        = acc * 10 ^ (printNatAux fuel n).length + n := by
  intro fuel
  induction fuel with
  | zero => intro n acc h; omega
  | succ fuel ih =>
    intro n acc h
    rw [printNatAux]
    by_cases h10 : n < 10
    · rw [if_pos h10]
      simp only [List.foldl_cons, List.foldl_nil, List.length_singleton, pow_one]
      rw [digitCh_toNat n h10]
      omega
    · rw [if_neg h10, List.foldl_append]
      simp only [List.foldl_cons, List.foldl_nil]
      rw [ih (n / 10) acc (by omega), digitCh_toNat (n % 10) (by omega)]
      have hlen : (printNatAux fuel (n / 10) ++ [digitCh (n % 10)]).length
          = (printNatAux fuel (n / 10)).length + 1 := by simp
      rw [hlen, pow_succ, ← mul_assoc]
      have hd := Nat.div_add_mod n 10
      generalize acc * 10 ^ (printNatAux fuel (n / 10)).length = t
      omega

theorem foldl_printNat (n acc : Nat) :
    (printNat n).foldl (fun a c => a * 10 + (c.toNat - 48)) acc
      = acc * 10 ^ (printNat n).length + n :=
  foldl_printNatAux (n + 1) n acc (Nat.lt_succ_self n)

/-- Parsing the printed decimal form of `n` followed by a non-digit
recovers `n` exactly. -/
theorem parseNatAux_printNat (n : Nat) (rest : List Char)
    (hrest : ∀ c cs, rest = c :: cs → isDigitCh c = false) :
    parseNatAux (printNat n ++ rest) 0 = (n, rest) := by
  rw [parseNatAux_digits_append (printNat n) rest 0 (printNat_all_digits n) hrest]
  rw [foldl_printNat]
  simp

/-! ## JSON strings (model of `JSON.stringify`/`JSON.parse` string handling) -/

/-- Hexadecimal digit character (lowercase), as emitted by `JSON.stringify`
for control characters. -/
def hexDigitCh (d : Nat) : Char := Char.ofNat (if d < 10 then 48 + d else 87 + d)

/-- Value of a hexadecimal digit character (either case), `none` otherwise. -/
def hexVal (c : Char) : Option Nat :=
  if 48 ≤ c.toNat ∧ c.toNat ≤ 57 then some (c.toNat - 48)
  else if 97 ≤ c.toNat ∧ c.toNat ≤ 102 then some (c.toNat - 87)
  else if 65 ≤ c.toNat ∧ c.toNat ≤ 70 then some (c.toNat - 55)
  else none

/-- JSON escaping of one character, mirroring `JSON.stringify`: quote and
backslash are escaped, the five short escapes are used for their control
characters, all other control characters become `\u00XX`, and everything
else is emitted verbatim. -/
def escapeChar (c : Char) : List Char :=
  if c = '"' then ['\\', '"']
  else if c = '\\' then ['\\', '\\']
  else if c.toNat = 8 then ['\\', 'b']
  else if c.toNat = 9 then ['\\', 't']
  else if c.toNat = 10 then ['\\', 'n']
  else if c.toNat = 12 then ['\\', 'f']
  else if c.toNat = 13 then ['\\', 'r']
  else if c.toNat < 32 then
    ['\\', 'u', '0', '0', hexDigitCh (c.toNat / 16), hexDigitCh (c.toNat % 16)]
  else [c]

/-- Concatenated map over a list (used for escaping every character). -/
def concatMap (f : α → List β) : List α → List β
  | [] => []
  | a :: l => f a ++ concatMap f l

/-- JSON escaping of a character sequence. -/
def escapeStr (s : List Char) : List Char := concatMap escapeChar s

/-- The printed form of a JSON string literal (opening and closing quote
around the escaped body). -/
def printJString (s : List Char) : List Char := '"' :: escapeStr s ++ ['"']

/-- Parse the body of a JSON string literal up to (and consuming) the
closing quote, mirroring `JSON.parse`: escape sequences are decoded and a
raw control character is a parse error. -/
def parseStrBody : List Char → Option (List Char × List Char)
  | [] => none
  | c :: cs =>
    if c = '"' then some ([], cs)
    else if c = '\\' then
      match cs with
      | [] => none
      | e :: cs2 =>
        if e = '"' then (parseStrBody cs2).map (fun p => ('"' :: p.1, p.2))
        else if e = '\\' then (parseStrBody cs2).map (fun p => ('\\' :: p.1, p.2))
        else if e = '/' then (parseStrBody cs2).map (fun p => ('/' :: p.1, p.2))
        else if e = 'b' then (parseStrBody cs2).map (fun p => (Char.ofNat 8 :: p.1, p.2))
        else if e = 't' then (parseStrBody cs2).map (fun p => (Char.ofNat 9 :: p.1, p.2))
        else if e = 'n' then (parseStrBody cs2).map (fun p => (Char.ofNat 10 :: p.1, p.2))
        else if e = 'f' then (parseStrBody cs2).map (fun p => (Char.ofNat 12 :: p.1, p.2))
        else if e = 'r' then (parseStrBody cs2).map (fun p => (Char.ofNat 13 :: p.1, p.2))
        else if e = 'u' then
          match cs2 with
          | h1 :: h2 :: h3 :: h4 :: cs3 =>
            match hexVal h1, hexVal h2, hexVal h3, hexVal h4 with
            | some a, some b, some d, some e2 =>
              let n := a * 4096 + b * 256 + d * 16 + e2
              if n < 55296 ∨ (57344 ≤ n ∧ n < 1114112) then
                (parseStrBody cs3).map (fun p => (Char.ofNat n :: p.1, p.2))
              else none
            | _, _, _, _ => none
          | _ => none
        else none
    else if c.toNat < 32 then none
    else (parseStrBody cs).map (fun p => (c :: p.1, p.2))

theorem hexVal_hexDigitCh (d : Nat) (h : d < 16) : hexVal (hexDigitCh d) = some d := by
  interval_cases d <;> decide

theorem hexVal_zero_ch : hexVal '0' = some 0 := by decide

/-- Parsing undoes the escaping of a single character, whatever follows. -/
theorem parseStrBody_escapeChar (c : Char) (tail : List Char) :
    parseStrBody (escapeChar c ++ tail)
      = (parseStrBody tail).map (fun p => (c :: p.1, p.2)) := by
  unfold escapeChar
  by_cases h1 : c = '"'
  · rw [if_pos h1, h1]
    rw [parseStrBody.eq_def]
    simp
  rw [if_neg h1]
  by_cases h2 : c = '\\'
  · rw [if_pos h2, h2]
    rw [parseStrBody.eq_def]
    simp
  rw [if_neg h2]
  by_cases h3 : c.toNat = 8
  · rw [if_pos h3]
    have hc : Char.ofNat 8 = c := by rw [← h3, Char.ofNat_toNat]
    rw [parseStrBody.eq_def]
    simp
    rw [hc]
  rw [if_neg h3]
  by_cases h4 : c.toNat = 9
  · rw [if_pos h4]
    have hc : Char.ofNat 9 = c := by rw [← h4, Char.ofNat_toNat]
    rw [parseStrBody.eq_def]
    simp
    rw [hc]
  rw [if_neg h4]
  by_cases h5 : c.toNat = 10
  · rw [if_pos h5]
    have hc : Char.ofNat 10 = c := by rw [← h5, Char.ofNat_toNat]
    rw [parseStrBody.eq_def]
    simp
    rw [hc]
  rw [if_neg h5]
  by_cases h6 : c.toNat = 12
  · rw [if_pos h6]
    have hc : Char.ofNat 12 = c := by rw [← h6, Char.ofNat_toNat]
    rw [parseStrBody.eq_def]
    simp
    rw [hc]
  rw [if_neg h6]
  by_cases h7 : c.toNat = 13
  · rw [if_pos h7]
    have hc : Char.ofNat 13 = c := by rw [← h7, Char.ofNat_toNat]
    rw [parseStrBody.eq_def]
    simp
    rw [hc]
  rw [if_neg h7]
  by_cases h8 : c.toNat < 32
  · rw [if_pos h8]
    have hdiv : c.toNat / 16 < 16 := by omega
    have hmod : c.toNat % 16 < 16 := by omega
    have hc : Char.ofNat (c.toNat / 16 * 16 + c.toNat % 16) = c := by
      have hn : c.toNat / 16 * 16 + c.toNat % 16 = c.toNat := by omega
      rw [hn, Char.ofNat_toNat]
    have hcond : c.toNat / 16 * 16 + c.toNat % 16 < 55296 := by omega
    rw [parseStrBody.eq_def]
    simp [hexVal_zero_ch, hexVal_hexDigitCh _ hdiv, hexVal_hexDigitCh _ hmod, hc, hcond]
  rw [if_neg h8]
  rw [parseStrBody.eq_def]
  simp [h1, h2, h8]

/-- Parsing undoes the escaping of a whole string body. -/
theorem parseStrBody_escapeStr (s rest : List Char) :
    parseStrBody (escapeStr s ++ '"' :: rest) = some (s, rest) := by
  induction s with
  | nil =>
    show parseStrBody ('"' :: rest) = some ([], rest)
    rw [parseStrBody.eq_def]
    simp
  | cons c s ih =>
    have h : escapeStr (c :: s) = escapeChar c ++ escapeStr s := rfl
    rw [h, List.append_assoc, parseStrBody_escapeChar, ih]
    rfl

/-! ## JSON values: parser (model of `JSON.parse`) -/

/-- Skip JSON whitespace (space, tab, line feed, carriage return). -/
def skipWs : List Char → List Char
  | c :: cs =>
    if c.toNat = 32 ∨ c.toNat = 9 ∨ c.toNat = 10 ∨ c.toNat = 13 then skipWs cs
    else c :: cs
  | [] => []

mutual

/-- Fuel-indexed recursive-descent parser for one JSON value; returns the
value and the unconsumed remainder.  The fuel only bounds nesting depth and
is chosen large enough at the top level (`jsonParse`). -/
def parseValue : Nat → List Char → Option (Json × List Char)
  | 0, _ => none
  | fuel + 1, cs =>
    match skipWs cs with
    | [] => none
    | c :: cs1 =>
      if c = 'n' then
        match cs1 with
        | 'u' :: 'l' :: 'l' :: cs2 => some (.null, cs2)
        | _ => none
      else if c = 't' then
        match cs1 with
        | 'r' :: 'u' :: 'e' :: cs2 => some (.bool true, cs2)
        | _ => none
      else if c = 'f' then
        match cs1 with
        | 'a' :: 'l' :: 's' :: 'e' :: cs2 => some (.bool false, cs2)
        | _ => none
      else if c = '"' then
        (parseStrBody cs1).map (fun p => (.str (String.mk p.1), p.2))
      else if c = '\x7b' then
        match skipWs cs1 with
        | '\x7d' :: cs2 => some (.obj [], cs2)
        | cs2 => (parseMembers fuel cs2).map (fun p => (.obj p.1, p.2))
      else if c = '[' then
        match skipWs cs1 with
        | ']' :: cs2 => some (.arr [], cs2)
        | cs2 => (parseItems fuel cs2).map (fun p => (.arr p.1, p.2))
      else if isDigitCh c then
        let p := parseNatAux cs1 (c.toNat - 48)
        some (.num p.1, p.2)
      else none

/-- Parse a non-empty member list of a JSON object, consuming the closing
brace. -/
def parseMembers : Nat → List Char → Option (List (String × Json) × List Char)
  | 0, _ => none
  | fuel + 1, cs =>
    match skipWs cs with
    | '"' :: cs1 =>
      match parseStrBody cs1 with
      | some (key, cs2) =>
        match skipWs cs2 with
        | ':' :: cs3 =>
          match parseValue fuel cs3 with
          | some (v, cs4) =>
            match skipWs cs4 with
            | ',' :: cs5 =>
              (parseMembers fuel cs5).map (fun p => ((String.mk key, v) :: p.1, p.2))
            | '\x7d' :: cs5 => some ([(String.mk key, v)], cs5)
            | _ => none
          | none => none
        | _ => none
      | none => none
    | _ => none

/-- Parse a non-empty item list of a JSON array, consuming the closing
bracket. -/
def parseItems : Nat → List Char → Option (List Json × List Char)
  | 0, _ => none
  | fuel + 1, cs =>
    match parseValue fuel cs with
    | some (v, cs1) =>
      match skipWs cs1 with
      | ',' :: cs2 => (parseItems fuel cs2).map (fun p => (v :: p.1, p.2))
      | ']' :: cs2 => some ([v], cs2)
      | _ => none
    | none => none

end

/-- Model of JavaScript `JSON.parse`: parse one value and require only
whitespace to remain; `none` models the thrown `SyntaxError`. -/
def jsonParse (s : String) : Option Json :=
  match parseValue (2 * s.data.length + 2) s.data with
  | some (v, rest) => if skipWs rest = [] then some v else none
  | none => none

/-! ## PublicData and its JSON form -/

/-- Modelled from the spec: the shared module declaring `PublicData` is not
under `src/`.  Per the data model of the spec, a `PublicData` record is "a user
identifier and a role"; `EmptyPublicData` is the sentinel with
`userId = null, role = null`.  A single record type with optional fields
covers both (the value type of the observable is `PublicData | EmptyPublicData`). -/
structure PublicData where
  userId : Option Nat
  role : Option String
  deriving DecidableEq

/-- The sentinel `{userId: null, role: null}` from the source. -/
def emptyPublicData : PublicData := ⟨none, none⟩

/-- The JavaScript object value of a `PublicData` record. -/
def publicDataToJson (pd : PublicData) : Json :=
  .obj [("userId", match pd.userId with | some n => .num n | none => .null),
        ("role", match pd.role with | some s => .str s | none => .null)]

/-- Read a `PublicData` record back off a JavaScript object value. -/
def jsonToPublicData : Json → Option PublicData
  | .obj [("userId", u), ("role", r)] =>
    match u, r with
    | .null, .null => some ⟨none, none⟩
    | .null, .str s => some ⟨none, some s⟩
    | .num n, .null => some ⟨some n, none⟩
    | .num n, .str s => some ⟨some n, some s⟩
    | _, _ => none
  | _ => none

/-- The characters of the JSON serialization of a `PublicData` record, as
`JSON.stringify` prints it (insertion order `userId`, `role`; no spaces). -/
def printPublicData (pd : PublicData) : List Char :=
  '\x7b' :: (printJString "userId".data ++ ':' ::
    ((match pd.userId with | some n => printNat n | none => ['n', 'u', 'l', 'l']) ++ ',' ::
      (printJString "role".data ++ ':' ::
        ((match pd.role with | some s => printJString s.data | none => ['n', 'u', 'l', 'l'])
          ++ ['\x7d']))))

/-! ### The printed form parses back -/

theorem skipWs_not_ws (c : Char) (cs : List Char)
    (h : ¬(c.toNat = 32 ∨ c.toNat = 9 ∨ c.toNat = 10 ∨ c.toNat = 13)) :
    skipWs (c :: cs) = c :: cs := by
  rw [skipWs]
  rw [if_neg h]

theorem parseValue_nullLit (fuel : Nat) (rest : List Char) :
    parseValue (fuel + 1) (['n', 'u', 'l', 'l'] ++ rest) = some (.null, rest) := by
  rw [parseValue]
  simp only [List.cons_append, List.nil_append]
  rw [skipWs_not_ws _ _ (by decide)]
  simp

theorem parseValue_strLit (fuel : Nat) (s rest : List Char) :
    parseValue (fuel + 1) (printJString s ++ rest) = some (.str (String.mk s), rest) := by
  rw [printJString]
  rw [parseValue]
  simp only [List.cons_append, List.append_assoc, List.singleton_append]
  rw [skipWs_not_ws _ _ (by decide)]
  simp [parseStrBody_escapeStr]

theorem parseValue_printNat (fuel n : Nat) (c : Char) (cs : List Char)
    (hc : isDigitCh c = false) :
    parseValue (fuel + 1) (printNat n ++ c :: cs) = some (.num n, c :: cs) := by
  cases hpn : printNat n with
  | nil => exact absurd hpn (printNat_ne_nil n)
  | cons d ds =>
    have hdig : isDigitCh d = true :=
      printNat_all_digits n d (by rw [hpn]; exact List.mem_cons_self d ds)
    have hbounds : 48 ≤ d.toNat ∧ d.toNat ≤ 57 := by
      simpa [isDigitCh] using hdig
    have hne_n : d ≠ 'n' := by
      intro h; rw [h] at hdig; exact absurd hdig (by decide)
    have hne_t : d ≠ 't' := by
      intro h; rw [h] at hdig; exact absurd hdig (by decide)
    have hne_f : d ≠ 'f' := by
      intro h; rw [h] at hdig; exact absurd hdig (by decide)
    have hne_q : d ≠ '"' := by
      intro h; rw [h] at hdig; exact absurd hdig (by decide)
    have hne_ob : d ≠ '\x7b' := by
      intro h; rw [h] at hdig; exact absurd hdig (by decide)
    have hne_ar : d ≠ '[' := by
      intro h; rw [h] at hdig; exact absurd hdig (by decide)
    have hnat : parseNatAux (ds ++ c :: cs) (d.toNat - 48) = (n, c :: cs) := by
      have h0 := parseNatAux_printNat n (c :: cs) (by
        intro c2 cs2 he
        injection he with he1 he2
        rw [← he1]
        exact hc)
      rw [hpn, List.cons_append, parseNatAux, if_pos hdig] at h0
      simpa using h0
    rw [parseValue]
    simp only [List.cons_append]
    rw [skipWs_not_ws _ _ (by omega)]
    simp [hne_n, hne_t, hne_f, hne_q, hne_ob, hne_ar, hdig, hnat]

theorem parseMembers_last (fuel : Nat) (k V rest : List Char) (v : Json)
    (hv : ∀ f (c : Char) (cs : List Char), isDigitCh c = false →
      parseValue (f + 1) (V ++ c :: cs) = some (v, c :: cs)) :
    parseMembers (fuel + 1 + 1) ('"' :: (escapeStr k ++ '"' :: ':' :: (V ++ '\x7d' :: rest)))
      = some ([(String.mk k, v)], rest) := by
  have hcolon : ∀ cs : List Char, skipWs (':' :: cs) = ':' :: cs :=
    fun cs => skipWs_not_ws _ _ (by decide)
  have hbrace : ∀ cs : List Char, skipWs ('\x7d' :: cs) = '\x7d' :: cs :=
    fun cs => skipWs_not_ws _ _ (by decide)
  rw [parseMembers]
  rw [skipWs_not_ws _ _ (by decide)]
  simp [parseStrBody_escapeStr, hcolon, hbrace, hv fuel '\x7d' rest (by decide)]

theorem parseMembers_cons (fuel : Nat) (k V rest : List Char) (v : Json)
    (hv : ∀ f (c : Char) (cs : List Char), isDigitCh c = false →
      parseValue (f + 1) (V ++ c :: cs) = some (v, c :: cs)) :
    parseMembers (fuel + 1 + 1) ('"' :: (escapeStr k ++ '"' :: ':' :: (V ++ ',' :: rest)))
      = (parseMembers (fuel + 1) rest).map
          (fun p => ((String.mk k, v) :: p.1, p.2)) := by
  have hcolon : ∀ cs : List Char, skipWs (':' :: cs) = ':' :: cs :=
    fun cs => skipWs_not_ws _ _ (by decide)
  have hcomma : ∀ cs : List Char, skipWs (',' :: cs) = ',' :: cs :=
    fun cs => skipWs_not_ws _ _ (by decide)
  rw [parseMembers]
  rw [skipWs_not_ws _ _ (by decide)]
  simp [parseStrBody_escapeStr, hcolon, hcomma, hv fuel ',' rest (by decide)]

theorem parseValue_obj2 (fuel : Nat) (k1 k2 V1 V2 rest : List Char) (v1 v2 : Json)
    (hv1 : ∀ f (c : Char) (cs : List Char), isDigitCh c = false →
      parseValue (f + 1) (V1 ++ c :: cs) = some (v1, c :: cs))
    (hv2 : ∀ f (c : Char) (cs : List Char), isDigitCh c = false →
      parseValue (f + 1) (V2 ++ c :: cs) = some (v2, c :: cs)) :
    parseValue (fuel + 1 + 1 + 1 + 1)
      ('\x7b' :: ('"' :: (escapeStr k1 ++ '"' :: ':' ::
        (V1 ++ ',' :: ('"' :: (escapeStr k2 ++ '"' :: ':' :: (V2 ++ '\x7d' :: rest)))))))
      = some (.obj [(String.mk k1, v1), (String.mk k2, v2)], rest) := by
  have hq : ∀ cs : List Char, skipWs ('"' :: cs) = '"' :: cs :=
    fun cs => skipWs_not_ws _ _ (by decide)
  rw [parseValue]
  rw [skipWs_not_ws _ _ (by decide)]
  simp [hq,
    parseMembers_cons (fuel + 1) k1 V1
      ('"' :: (escapeStr k2 ++ '"' :: ':' :: (V2 ++ '\x7d' :: rest))) v1 hv1,
    parseMembers_last fuel k2 V2 rest v2 hv2]

theorem parseValue_printPublicData (fuel : Nat) (pd : PublicData) (rest : List Char) :
    parseValue (fuel + 1 + 1 + 1 + 1) (printPublicData pd ++ rest)
      = some (publicDataToJson pd, rest) := by
  have hv1 : ∀ f (c : Char) (cs : List Char), isDigitCh c = false →
      parseValue (f + 1)
        ((match pd.userId with | some n => printNat n | none => ['n', 'u', 'l', 'l'])
          ++ c :: cs)
      = some ((match pd.userId with | some n => Json.num n | none => Json.null), c :: cs) := by
    cases pd.userId with
    | some n => intro f c cs h; exact parseValue_printNat f n c cs h
    | none => intro f c cs _; exact parseValue_nullLit f (c :: cs)
  have hv2 : ∀ f (c : Char) (cs : List Char), isDigitCh c = false →
      parseValue (f + 1)
        ((match pd.role with | some s => printJString s.data | none => ['n', 'u', 'l', 'l'])
          ++ c :: cs)
      = some ((match pd.role with | some s => Json.str s | none => Json.null), c :: cs) := by
    cases pd.role with
    | some s => intro f c cs _; exact parseValue_strLit f s.data (c :: cs)
    | none => intro f c cs _; exact parseValue_nullLit f (c :: cs)
  have hmain := parseValue_obj2 fuel "userId".data "role".data
    (match pd.userId with | some n => printNat n | none => ['n', 'u', 'l', 'l'])
    (match pd.role with | some s => printJString s.data | none => ['n', 'u', 'l', 'l'])
    rest
    (match pd.userId with | some n => Json.num n | none => Json.null)
    (match pd.role with | some s => Json.str s | none => Json.null)
    hv1 hv2
  calc parseValue (fuel + 1 + 1 + 1 + 1) (printPublicData pd ++ rest)
      = parseValue (fuel + 1 + 1 + 1 + 1)
          ('\x7b' :: ('"' :: (escapeStr "userId".data ++ '"' :: ':' ::
            ((match pd.userId with | some n => printNat n | none => ['n', 'u', 'l', 'l'])
              ++ ',' :: ('"' :: (escapeStr "role".data ++ '"' :: ':' ::
                ((match pd.role with
                  | some s => printJString s.data
                  | none => ['n', 'u', 'l', 'l']) ++ '\x7d' :: rest))))))) := by
        rw [printPublicData, printJString, printJString]
        simp only [List.cons_append, List.append_assoc, List.singleton_append,
          List.nil_append]
    _ = some (publicDataToJson pd, rest) := by
        rw [hmain]
        rfl

theorem jsonParse_printPublicData (pd : PublicData) :
    jsonParse (String.mk (printPublicData pd)) = some (publicDataToJson pd) := by
  rw [jsonParse]
  have hdata : (String.mk (printPublicData pd)).data = printPublicData pd := rfl
  rw [hdata]
  have hlen : 1 ≤ (printPublicData pd).length := by
    rw [printPublicData]
    simp
  have hm : 2 * (printPublicData pd).length + 2
      = (2 * (printPublicData pd).length - 2) + 1 + 1 + 1 + 1 := by omega
  rw [hm]
  have h := parseValue_printPublicData (2 * (printPublicData pd).length - 2) pd []
  rw [List.append_nil] at h
  rw [h]
  simp [skipWs]

/-! ## UTF-8 bytes (model of the string/byte conversion inside `b64-lite`) -/

/-- UTF-8 encoding of one Unicode scalar value (as byte values). -/
def utf8EncodeChar (c : Char) : List Nat :=
  let n := c.toNat
  if n < 128 then [n]
  else if n < 2048 then [192 + n / 64, 128 + n % 64]
  else if n < 65536 then [224 + n / 4096, 128 + n / 64 % 64, 128 + n % 64]
  else [240 + n / 262144, 128 + n / 4096 % 64, 128 + n / 64 % 64, 128 + n % 64]

/-- UTF-8 encoding of a character sequence. -/
def utf8Encode (cs : List Char) : List Nat := concatMap utf8EncodeChar cs

/-- Is `n` a Unicode scalar value (excluding surrogates)? -/
def validScalar (n : Nat) : Bool :=
  decide (n < 55296) || (decide (57344 ≤ n) && decide (n < 1114112))

/-- UTF-8 decoding of a byte sequence; rejects stray continuation bytes,
truncated sequences, overlong forms and surrogate/out-of-range values. -/
def utf8Decode : List Nat → Option (List Char)
  | [] => some []
  | b :: bs =>
    if b < 128 then (utf8Decode bs).map (fun cs => Char.ofNat b :: cs)
    else if b < 192 then none
    else
      match bs with
      | [] => none
      | b2 :: bs2 =>
        if b < 224 then
          if 128 ≤ b2 ∧ b2 < 192 then
            let n := (b - 192) * 64 + (b2 - 128)
            if 128 ≤ n ∧ validScalar n then
              (utf8Decode bs2).map (fun cs => Char.ofNat n :: cs)
            else none
          else none
        else
          match bs2 with
          | [] => none
          | b3 :: bs3 =>
            if b < 240 then
              if (128 ≤ b2 ∧ b2 < 192) ∧ (128 ≤ b3 ∧ b3 < 192) then
                let n := (b - 224) * 4096 + (b2 - 128) * 64 + (b3 - 128)
                if 2048 ≤ n ∧ validScalar n then
                  (utf8Decode bs3).map (fun cs => Char.ofNat n :: cs)
                else none
              else none
            else
              match bs3 with
              | [] => none
              | b4 :: bs4 =>
                if b < 248 then
                  if (128 ≤ b2 ∧ b2 < 192) ∧ (128 ≤ b3 ∧ b3 < 192)
                      ∧ (128 ≤ b4 ∧ b4 < 192) then
                    let n := (b - 240) * 262144 + (b2 - 128) * 4096
                      + (b3 - 128) * 64 + (b4 - 128)
                    if 65536 ≤ n ∧ validScalar n then
                      (utf8Decode bs4).map (fun cs => Char.ofNat n :: cs)
                    else none
                  else none
                else none

theorem char_toNat_lt (c : Char) : c.toNat < 1114112 := by
  have h := c.valid
  rcases h with h | ⟨h1, h2⟩
  · have : c.toNat = c.val.toNat := rfl
    omega
  · have : c.toNat = c.val.toNat := rfl
    omega

theorem char_toNat_not_surrogate (c : Char) :
    c.toNat < 55296 ∨ (57344 ≤ c.toNat ∧ c.toNat < 1114112) := by
  have h := c.valid
  rcases h with h | ⟨h1, h2⟩
  · left; exact h
  · right; exact ⟨h1, h2⟩

theorem validScalar_toNat (c : Char) : validScalar c.toNat = true := by
  rcases char_toNat_not_surrogate c with h | ⟨h1, h2⟩ <;> simp [validScalar] <;> omega

set_option maxRecDepth 4096

theorem utf8Decode_one (b : Nat) (tail : List Nat) (h : b < 128) :
    utf8Decode (b :: tail) = (utf8Decode tail).map (fun cs => Char.ofNat b :: cs) := by
  rw [utf8Decode.eq_def]
  simp [h]

theorem utf8Decode_two (b1 b2 : Nat) (tail : List Nat)
    (h1 : 192 ≤ b1) (h2 : b1 < 224) (h3 : 128 ≤ b2) (h4 : b2 < 192)
    (h5 : 128 ≤ (b1 - 192) * 64 + (b2 - 128))
    (h6 : validScalar ((b1 - 192) * 64 + (b2 - 128)) = true) :
    utf8Decode (b1 :: b2 :: tail)
      = (utf8Decode tail).map (fun cs => Char.ofNat ((b1 - 192) * 64 + (b2 - 128)) :: cs) := by
  have hn1 : ¬(b1 < 128) := by omega
  have hn2 : ¬(b1 < 192) := by omega
  rw [utf8Decode.eq_def]
  simp [hn1, hn2, h2, h3, h4, h5, h6]

theorem utf8Decode_three (b1 b2 b3 : Nat) (tail : List Nat)
    (h1 : 224 ≤ b1) (h2 : b1 < 240) (h3 : 128 ≤ b2) (h4 : b2 < 192)
    (h5 : 128 ≤ b3) (h6 : b3 < 192)
    (h7 : 2048 ≤ (b1 - 224) * 4096 + (b2 - 128) * 64 + (b3 - 128))
    (h8 : validScalar ((b1 - 224) * 4096 + (b2 - 128) * 64 + (b3 - 128)) = true) :
    utf8Decode (b1 :: b2 :: b3 :: tail)
      = (utf8Decode tail).map
          (fun cs => Char.ofNat ((b1 - 224) * 4096 + (b2 - 128) * 64 + (b3 - 128)) :: cs) := by
  have hn1 : ¬(b1 < 128) := by omega
  have hn2 : ¬(b1 < 192) := by omega
  have hn3 : ¬(b1 < 224) := by omega
  rw [utf8Decode.eq_def]
  simp [hn1, hn2, hn3, h2, h3, h4, h5, h6, h7, h8]

theorem utf8Decode_four (b1 b2 b3 b4 : Nat) (tail : List Nat)
    (h1 : 240 ≤ b1) (h2 : b1 < 248) (h3 : 128 ≤ b2) (h4 : b2 < 192)
    (h5 : 128 ≤ b3) (h6 : b3 < 192) (h7 : 128 ≤ b4) (h8 : b4 < 192)
    (h9 : 65536 ≤ (b1 - 240) * 262144 + (b2 - 128) * 4096 + (b3 - 128) * 64 + (b4 - 128))
    (h10 : validScalar
      ((b1 - 240) * 262144 + (b2 - 128) * 4096 + (b3 - 128) * 64 + (b4 - 128)) = true) :
    utf8Decode (b1 :: b2 :: b3 :: b4 :: tail)
      = (utf8Decode tail).map
          (fun cs =>
            Char.ofNat ((b1 - 240) * 262144 + (b2 - 128) * 4096 + (b3 - 128) * 64 + (b4 - 128))
              :: cs) := by
  have hn1 : ¬(b1 < 128) := by omega
  have hn2 : ¬(b1 < 192) := by omega
  have hn3 : ¬(b1 < 224) := by omega
  have hn4 : ¬(b1 < 240) := by omega
  rw [utf8Decode.eq_def]
  simp [hn1, hn2, hn3, hn4, h2, h3, h4, h5, h6, h7, h8, h9, h10]

/-- Decoding undoes the encoding of one character, whatever bytes follow. -/
theorem utf8Decode_encodeChar (c : Char) (tail : List Nat) :
    utf8Decode (utf8EncodeChar c ++ tail)
      = (utf8Decode tail).map (fun cs => c :: cs) := by
  have hval := validScalar_toNat c
  have hlt := char_toNat_lt c
  rw [utf8EncodeChar]
  by_cases h1 : c.toNat < 128
  · rw [if_pos h1]
    simp only [List.cons_append, List.nil_append]
    rw [utf8Decode_one _ _ h1, Char.ofNat_toNat]
  rw [if_neg h1]
  by_cases h2 : c.toNat < 2048
  · rw [if_pos h2]
    simp only [List.cons_append, List.nil_append]
    have e : (192 + c.toNat / 64 - 192) * 64 + (128 + c.toNat % 64 - 128) = c.toNat := by
      omega
    rw [utf8Decode_two _ _ tail (by omega) (by omega) (by omega) (by omega)
      (by omega) (by rw [e]; exact hval)]
    rw [e, Char.ofNat_toNat]
  rw [if_neg h2]
  by_cases h3 : c.toNat < 65536
  · rw [if_pos h3]
    simp only [List.cons_append, List.nil_append]
    have e : (224 + c.toNat / 4096 - 224) * 4096 + (128 + c.toNat / 64 % 64 - 128) * 64
        + (128 + c.toNat % 64 - 128) = c.toNat := by omega
    rw [utf8Decode_three _ _ _ tail (by omega) (by omega) (by omega) (by omega)
      (by omega) (by omega) (by omega) (by rw [e]; exact hval)]
    rw [e, Char.ofNat_toNat]
  rw [if_neg h3]
  simp only [List.cons_append, List.nil_append]
  have e : (240 + c.toNat / 262144 - 240) * 262144 + (128 + c.toNat / 4096 % 64 - 128) * 4096
      + (128 + c.toNat / 64 % 64 - 128) * 64 + (128 + c.toNat % 64 - 128) = c.toNat := by
    omega
  rw [utf8Decode_four _ _ _ _ tail (by omega) (by omega) (by omega) (by omega)
    (by omega) (by omega) (by omega) (by omega) (by omega) (by rw [e]; exact hval)]
  rw [e, Char.ofNat_toNat]

/-- UTF-8 decoding is a left inverse of UTF-8 encoding. -/
theorem utf8Decode_utf8Encode (cs : List Char) :
    utf8Decode (utf8Encode cs) = some cs := by
  induction cs with
  | nil => rfl
  | cons c cs ih =>
    have h : utf8Encode (c :: cs) = utf8EncodeChar c ++ utf8Encode cs := rfl
    rw [h, utf8Decode_encodeChar, ih]
    rfl

/-- Every byte produced by the UTF-8 encoder is below 256. -/
theorem utf8Encode_lt_256 (cs : List Char) : ∀ b ∈ utf8Encode cs, b < 256 := by
  induction cs with
  | nil => intro b hb; simp [utf8Encode, concatMap] at hb
  | cons c cs ih =>
    intro b hb
    have h : utf8Encode (c :: cs) = utf8EncodeChar c ++ utf8Encode cs := rfl
    rw [h] at hb
    rcases List.mem_append.mp hb with h1 | h1
    · have hlt := char_toNat_lt c
      rw [utf8EncodeChar] at h1
      by_cases c1 : c.toNat < 128
      · rw [if_pos c1] at h1
        simp at h1
        omega
      rw [if_neg c1] at h1
      by_cases c2 : c.toNat < 2048
      · rw [if_pos c2] at h1
        simp at h1
        rcases h1 with h1 | h1 <;> omega
      rw [if_neg c2] at h1
      by_cases c3 : c.toNat < 65536
      · rw [if_pos c3] at h1
        simp at h1
        rcases h1 with h1 | h1 | h1 <;> omega
      rw [if_neg c3] at h1
      simp at h1
      rcases h1 with h1 | h1 | h1 | h1 <;> omega
    · exact ih b h1

/-! ## Base64 (model of `toBase64` and `fromBase64` from `b64-lite`) -/

/-- The standard base64 alphabet. -/
def b64Alphabet : List Char :=
  "ABCDEFGHIJKLMNOPQRSTUVWXYZabcdefghijklmnopqrstuvwxyz0123456789+/".data

/-- The alphabet character of a sextet value. -/
def b64Char (v : Nat) : Char := b64Alphabet.getD v 'A'

/-- Position of a character in a character list. -/
def indexOfCh (c : Char) : List Char → Option Nat
  | [] => none
  | d :: ds => if d = c then some 0 else (indexOfCh c ds).map (· + 1)

/-- The sextet value of an alphabet character, `none` for other characters
(including the padding character). -/
def b64CharVal (c : Char) : Option Nat := indexOfCh c b64Alphabet

/-- Base64 encoding of a byte sequence, with `=` padding. -/
def base64Encode : List Nat → List Char
  | [] => []
  | [a] => [b64Char (a / 4), b64Char (a % 4 * 16), '=', '=']
  | [a, b] => [b64Char (a / 4), b64Char (a % 4 * 16 + b / 16), b64Char (b % 16 * 4), '=']
  | a :: b :: c :: rest =>
    b64Char (a / 4) :: b64Char (a % 4 * 16 + b / 16) :: b64Char (b % 16 * 4 + c / 64)
      :: b64Char (c % 64) :: base64Encode rest

/-- Base64 decoding; fails on non-alphabet characters, misplaced padding or
inputs whose length is not a multiple of four. -/
def base64Decode : List Char → Option (List Nat)
  | [] => some []
  | c1 :: c2 :: c3 :: c4 :: rest =>
    match b64CharVal c1, b64CharVal c2 with
    | some v1, some v2 =>
      if c3 = '=' then
        if c4 = '=' ∧ rest = [] then some [v1 * 4 + v2 / 16] else none
      else
        match b64CharVal c3 with
        | some v3 =>
          if c4 = '=' then
            if rest = [] then some [v1 * 4 + v2 / 16, v2 % 16 * 16 + v3 / 4] else none
          else
            match b64CharVal c4 with
            | some v4 =>
              (base64Decode rest).map
                (fun ds => (v1 * 4 + v2 / 16) :: (v2 % 16 * 16 + v3 / 4)
                  :: (v3 % 4 * 64 + v4) :: ds)
            | none => none
        | none => none
    | _, _ => none
  | _ => some []

theorem b64CharVal_b64Char : ∀ v < 64, b64CharVal (b64Char v) = some v := by decide

theorem b64Char_ne_pad : ∀ v < 64, b64Char v ≠ '=' := by decide

/-- Base64 decoding is a left inverse of base64 encoding on byte lists. -/
theorem base64Decode_base64Encode :
    ∀ (bytes : List Nat), (∀ b ∈ bytes, b < 256) →
      base64Decode (base64Encode bytes) = some bytes
  | [], _ => by
    rw [base64Encode]
    rw [base64Decode]
  | [a], h => by
    have ha : a < 256 := h a (by simp)
    have h1 := b64CharVal_b64Char (a / 4) (by omega)
    have h2 := b64CharVal_b64Char (a % 4 * 16) (by omega)
    rw [base64Encode]
    rw [base64Decode.eq_def]
    simp [h1, h2]
    omega
  | [a, b], h => by
    have ha : a < 256 := h a (by simp)
    have hb : b < 256 := h b (by simp)
    have h1 := b64CharVal_b64Char (a / 4) (by omega)
    have h2 := b64CharVal_b64Char (a % 4 * 16 + b / 16) (by omega)
    have h3 := b64CharVal_b64Char (b % 16 * 4) (by omega)
    have hne := b64Char_ne_pad (b % 16 * 4) (by omega)
    rw [base64Encode]
    rw [base64Decode.eq_def]
    simp [h1, h2, h3, hne]
    constructor
    · omega
    · omega
  | a :: b :: c :: rest, h => by
    have ha : a < 256 := h a (by simp)
    have hb : b < 256 := h b (by simp)
    have hc : c < 256 := h c (by simp)
    have h1 := b64CharVal_b64Char (a / 4) (by omega)
    have h2 := b64CharVal_b64Char (a % 4 * 16 + b / 16) (by omega)
    have h3 := b64CharVal_b64Char (b % 16 * 4 + c / 64) (by omega)
    have h4 := b64CharVal_b64Char (c % 64) (by omega)
    have hne3 := b64Char_ne_pad (b % 16 * 4 + c / 64) (by omega)
    have hne4 := b64Char_ne_pad (c % 64) (by omega)
    have ih := base64Decode_base64Encode rest
      (fun x hx => h x (by simp; tauto))
    rw [base64Encode]
    rw [base64Decode.eq_def]
    simp [h1, h2, h3, h4, hne3, hne4, ih]
    refine ⟨by omega, by omega, by omega⟩

/-- Model of the `b64-lite` function `toBase64`: base64 of the UTF-8 bytes. -/
def toBase64 (s : String) : String := String.mk (base64Encode (utf8Encode s.data))

/-- Model of the `b64-lite` function `fromBase64`: base64-decode, then UTF-8-decode;
the error cases model the exceptions thrown by `atob` and by the UTF-8
conversion. -/
def fromBase64 (s : String) : Except String String :=
  match base64Decode s.data with
  | none => .error "InvalidCharacterError: invalid base64 input"
  | some bytes =>
    match utf8Decode bytes with
    | none => .error "URIError: malformed UTF-8 sequence"
    | some cs => .ok (String.mk cs)

/-- `fromBase64` undoes `toBase64` on every string. -/
theorem fromBase64_toBase64 (s : String) : fromBase64 (toBase64 s) = .ok s := by
  rw [toBase64, fromBase64]
  rw [show (String.mk (base64Encode (utf8Encode s.data))).data
    = base64Encode (utf8Encode s.data) from rfl]
  rw [base64Decode_base64Encode _ (utf8Encode_lt_256 s.data)]
  simp [utf8Decode_utf8Encode]

/-! ## The token codec (`parsePublicDataToken`, client/index.tsx lines 44-56) -/

/-- `parsePublicDataToken` from the source: assert the token is non-empty
(an empty string is falsy, so `assert` throws), base64-decode it *outside*
the `try` (so a base64/UTF-8 failure propagates as its own error), then
`JSON.parse` inside a `try` whose `catch` rethrows an error carrying the
raw decoded string.  Errors are modelled as `Except.error` with the
message. -/
def parsePublicDataToken (token : String) : Except String Json :=
  if token = "" then .error "[parsePublicDataToken] Failed: token is empty"
  else
    match fromBase64 token with
    | .error e => .error e
    | .ok publicDataStr =>
      match jsonParse publicDataStr with
      | some publicData => .ok publicData
      | none => .error ("[parsePublicDataToken] Failed to parse publicDataStr: "
          ++ publicDataStr)

/-- The server-side encoding of a `PublicData` record (base64 of the JSON
serialization), the encoding that the round-trip property of the spec refers to. -/
def encodePublicData (pd : PublicData) : String :=
  toBase64 (String.mk (printPublicData pd))

theorem utf8EncodeChar_ne_nil (c : Char) : utf8EncodeChar c ≠ [] := by
  rw [utf8EncodeChar]
  by_cases h1 : c.toNat < 128
  · simp [h1]
  by_cases h2 : c.toNat < 2048 <;> by_cases h3 : c.toNat < 65536 <;> simp [h1, h2, h3]

theorem base64Encode_ne_nil (b : Nat) (bs : List Nat) : base64Encode (b :: bs) ≠ [] := by
  cases bs with
  | nil => rw [base64Encode]; simp
  | cons b2 bs2 =>
    cases bs2 with
    | nil => rw [base64Encode]; simp
    | cons b3 bs3 => rw [base64Encode]; simp

theorem encodePublicData_ne_empty (pd : PublicData) : encodePublicData pd ≠ "" := by
  intro hcontra
  have hdata : base64Encode (utf8Encode (printPublicData pd)) = [] := by
    have h := congrArg String.data hcontra
    exact h
  have h1 : utf8Encode (printPublicData pd) ≠ [] := by
    rw [printPublicData]
    show utf8EncodeChar '\x7b' ++ _ ≠ []
    simp [utf8EncodeChar_ne_nil]
  obtain ⟨b, bs, hbs⟩ := List.exists_cons_of_ne_nil h1
  rw [hbs] at hdata
  exact base64Encode_ne_nil b bs hdata

/-- Decoding a freshly encoded `PublicData` token yields exactly the encoded
record (as its JavaScript object value). -/
theorem parsePublicDataToken_encodePublicData (pd : PublicData) :
    parsePublicDataToken (encodePublicData pd) = .ok (publicDataToJson pd) := by
  rw [parsePublicDataToken]
  rw [if_neg (encodePublicData_ne_empty pd)]
  rw [show encodePublicData pd = toBase64 (String.mk (printPublicData pd)) from rfl]
  rw [fromBase64_toBase64]
  simp [jsonParse_printPublicData pd]

/-- Reading the fields back off the object value recovers the record. -/
theorem jsonToPublicData_publicDataToJson (pd : PublicData) :
    jsonToPublicData (publicDataToJson pd) = some pd := by
  obtain ⟨u, r⟩ := pd
  cases u <;> cases r <;> rfl

/-! ## Browser state: cookies and localStorage -/

/-- Modelled from the spec: the key-name constants come from `../shared`,
which is not under `src/`.  Only distinctness of the localStorage keys
matters below; the names use the default `"blitz"` naming of the spec. -/
def COOKIE_PUBLIC_DATA_TOKEN : String := "blitz_sPublicDataToken"

/-- Modelled from the spec: anti-CSRF cookie name (from `../shared`). -/
def COOKIE_CSRF_TOKEN : String := "blitz_sAntiCsrfToken"

/-- Modelled from the spec: localStorage mirror key of the session token. -/
def LOCALSTORAGE_PUBLIC_DATA_TOKEN : String := "blitz_sPublicDataToken"

/-- Modelled from the spec: localStorage mirror key of the anti-CSRF token. -/
def LOCALSTORAGE_CSRF_TOKEN : String := "blitz_sAntiCsrfToken"

/-- The broadcast key, `LOCALSTORAGE_PREFIX + "publicDataUpdated"`
(`this.eventKey` in the source). -/
def eventKey : String := "blitz_publicDataUpdated"

/-- The browser-visible state: the cookie jar, the localStorage contents and
whether localStorage is accessible (accessing it throws when it is not,
e.g. disabled by browser policy). -/
structure World where
  cookies : List (String × String)
  ls : List (String × String)
  lsAvailable : Bool
  deriving DecidableEq

/-- Model of the blitz helper `readCookie` (repository code outside `src/`, modelled
from the spec): the cookie value, or absent.  Reading cookies never
throws. -/
def readCookie (name : String) (w : World) : Option String := kvGet name w.cookies

/-- Model of the blitz helper `deleteCookie`: removes the cookie. -/
def deleteCookie (name : String) (w : World) : World :=
  { w with cookies := kvRemove name w.cookies }

/-- `localStorage.getItem`; accessing localStorage throws when unavailable. -/
def lsGetItem (name : String) (w : World) : Except String (Option String) :=
  if w.lsAvailable then .ok (kvGet name w.ls)
  else .error "LocalStorage is not available"

/-- `localStorage.setItem`; throws when unavailable. -/
def lsSetItem (name v : String) (w : World) : Except String World :=
  if w.lsAvailable then .ok { w with ls := kvSet name v w.ls }
  else .error "LocalStorage is not available"

/-- `localStorage.removeItem`; throws when unavailable. -/
def lsRemoveItem (name : String) (w : World) : Except String World :=
  if w.lsAvailable then .ok { w with ls := kvRemove name w.ls }
  else .error "LocalStorage is not available"

/-! ## The PublicDataStore (client/index.tsx lines 60-125) -/

/-- The `{userId: null, role: null}` object flowing through the store. -/
def emptyPublicDataJson : Json := publicDataToJson emptyPublicData

/-- `PublicDataStore.getToken` (lines 111-124): prefer a truthy cookie and
write it through to localStorage; otherwise fall back to localStorage.  The
whole body is inside `try`; on a storage exception the `catch` logs and
returns `undefined`. -/
def getToken (w : World) : Option String × World :=
  let cookieValue := readCookie COOKIE_PUBLIC_DATA_TOKEN w
  if jsTruthyStr cookieValue then
    match lsSetItem LOCALSTORAGE_PUBLIC_DATA_TOKEN (cookieValue.getD "") w with
    | .ok w2 => (cookieValue, w2)
    | .error _ => (none, w)
  else
    match lsGetItem LOCALSTORAGE_PUBLIC_DATA_TOKEN w with
    | .ok v => (v, w)
    | .error _ => (none, w)

/-- `PublicDataStore.getData` (lines 101-109): `emptyPublicData` for a falsy
token, otherwise decode; a decode failure propagates (`Except.error`). -/
def getData (w : World) : Except String Json × World :=
  let p := getToken w
  if jsTruthyStr p.1 then
    match parsePublicDataToken (p.1.getD "") with
    | .ok publicData => (.ok publicData, p.2)
    | .error e => (.error e, p.2)
  else
    (.ok emptyPublicDataJson, p.2)

/-- The store of one execution context: the browser state, the registered subscriber handles of the observable, and the log of notifications delivered so
far (each `observable.next v` appends one entry per current subscriber, in
subscription order). -/
structure StoreState where
  world : World
  subscribers : List Nat
  log : List (Nat × Json)

/-- `observable.next`: deliver one value to every current subscriber. -/
def emit (s : StoreState) (v : Json) : StoreState :=
  { s with log := s.log ++ s.subscribers.map (fun i => (i, v)) }

/-- `observable.subscribe`: register one more observer handle. -/
def subscribe (s : StoreState) (id : Nat) : StoreState :=
  { s with subscribers := s.subscribers ++ [id] }

/-- `PublicDataStore.updateState` (lines 77-89).  `now` models `Date.now()`.
Unless `suppressEvent`, write the broadcast key (a storage exception is
caught and logged); then `observable.next (value ?? this.getData())`.  The
second component is the error thrown out of the call (a decode failure of the recompute), `none` when it returns normally. -/
def updateState (s : StoreState) (value : Option Json) (suppressEvent : Bool)
    (now : Nat) : StoreState × Option String :=
  let s1 :=
    if suppressEvent then s
    else
      match lsSetItem eventKey (toString now) s.world with
      | .ok w2 => { s with world := w2 }
      | .error _ => s
  match value with
  | some v => (emit s1 v, none)
  | none =>
    match getData s1.world with
    | (.ok j, w2) => (emit { s1 with world := w2 } j, none)
    | (.error e, w2) => ({ s1 with world := w2 }, some e)

/-- `PublicDataStore.clear` (lines 91-99): delete the session cookie, remove
the localStorage mirror (logging a storage exception), then
`updateState(emptyPublicData)` — with no options, so the broadcast key is
written and the empty value is emitted. -/
def clear (s : StoreState) (now : Nat) : StoreState × Option String :=
  let w1 := deleteCookie COOKIE_PUBLIC_DATA_TOKEN s.world
  let w2 :=
    match lsRemoveItem LOCALSTORAGE_PUBLIC_DATA_TOKEN w1 with
    | .ok w3 => w3
    | .error _ => w1
  updateState { s with world := w2 } (some emptyPublicDataJson) false now

/-! ## Anti-CSRF helpers (client/index.tsx lines 134-148) -/

/-- `backupAntiCSRFTokenToLocalStorage` (lines 134-139): copy a truthy CSRF
cookie into localStorage.  There is no `try`/`catch`: a storage exception
propagates to the caller. -/
def backupAntiCSRFTokenToLocalStorage (w : World) : Except String World :=
  let cookieValue := readCookie COOKIE_CSRF_TOKEN w
  if jsTruthyStr cookieValue then
    lsSetItem LOCALSTORAGE_CSRF_TOKEN (cookieValue.getD "") w
  else .ok w

/-- `getAntiCSRFToken` (lines 141-148): a truthy CSRF cookie wins; otherwise
read the localStorage backup.  There is no `try`/`catch`: a storage
exception propagates to the caller. -/
def getAntiCSRFToken (w : World) : Except String (Option String) :=
  let cookieValue := readCookie COOKIE_CSRF_TOKEN w
  if jsTruthyStr cookieValue then .ok cookieValue
  else lsGetItem LOCALSTORAGE_CSRF_TOKEN w

/-! ## Authorization gate (client/index.tsx lines 188-222) -/

/-- A declared role requirement: a single role name or an array of names
(the source accepts `string | Array<string>`). -/
inductive RoleSpec where
  | one (r : String)
  | many (rs : List String)
  deriving DecidableEq

/-- JavaScript truthiness of the optional `role` argument: absent and `""`
are falsy; an array (even empty) is truthy. -/
def roleTruthy : Option RoleSpec → Bool
  | none => false
  | some (.one r) => r ≠ ""
  | some (.many _) => true

/-- The control-flow faults the gate can raise (`AuthenticationError` and
`RedirectError`, thrown with their stack removed). -/
inductive Fault where
  | authenticationError
  | redirectError (url : String)
  deriving DecidableEq

/-- JavaScript truthiness of a value read off parsed JSON (`none` models
`undefined`). -/
def jsTruthyJson : Option Json → Bool
  | none => false
  | some .null => false
  | some (.bool b) => b
  | some (.num n) => n ≠ 0
  | some (.str s) => s ≠ ""
  | some (.arr _) => true
  | some (.obj _) => true

/-- First binding of a key among the members of an object. -/
def lookupField : List (String × Json) → String → Option Json
  | [], _ => none
  | (k2, v) :: rest, k => if k2 = k then some v else lookupField rest k

/-- JavaScript property access on a parsed value: a field of an object,
`undefined` otherwise. -/
def Json.getField (j : Json) (k : String) : Option Json :=
  match j with
  | .obj members => lookupField members k
  | _ => none

/-- `authorizeRole` (lines 209-222): both arguments must be truthy; an array
role matches by membership (`includes`), a string role by strict equality.
Strict equality of the declared string role(s) against a non-string
`currentRole` value is always false. -/
def authorizeRole (role : Option RoleSpec) (currentRole : Option Json) : Bool :=
  if roleTruthy role && jsTruthyJson currentRole then
    match role with
    | some (.one r) =>
      match currentRole with
      | some (.str s) => s = r
      | _ => false
    | some (.many rs) =>
      match currentRole with
      | some (.str s) => rs.contains s
      | _ => false
    | none => false
  else false

/-- `useAuthorizeIf` (lines 188-207) on the client with the component flag `mounted` made explicit.  Each `getPublicDataStore().getData()` call is
threaded through the world (each can write through to localStorage, and a
decode failure propagates as `Except.error`).  `.ok (some f, w)` means the
gate threw the fault `f`; `.ok (none, w)` means it returned normally. -/
def useAuthorizeIf (w : World) (condition : Bool) (role : Option RoleSpec)
    (mounted : Bool) : Except String (Option Fault × World) :=
  if condition then
    match getData w with
    | (.error e, _) => .error e
    | (.ok pd1, w1) =>
      if !jsTruthyJson (pd1.getField "userId") && mounted then
        .ok (some .authenticationError, w1)
      else
        if roleTruthy role then
          match getData w1 with
          | (.error e, _) => .error e
          | (.ok pd2, w2) =>
            if jsTruthyJson (pd2.getField "userId") && mounted then
              match getData w2 with
              | (.error e, _) => .error e
              | (.ok pd3, w3) =>
                if !authorizeRole role (pd3.getField "role") then
                  .ok (some .authenticationError, w3)
                else .ok (none, w3)
            else .ok (none, w2)
        else .ok (none, w1)
  else .ok (none, w)

/-! ## Declarative rule lookup (`getAuthValues`, client/index.tsx lines 268-301) -/

/-- An `authenticate` value: `boolean`, or an object with optional
`redirectTo` and `role`. -/
inductive AuthValue where
  | bool (b : Bool)
  | obj (redirectTo : Option String) (role : Option RoleSpec)
  deriving DecidableEq

/-- A `redirectAuthenticatedTo` value: a URL string or the literal `false`
(function-valued rules play no part in the lookup walk). -/
inductive RedirectValue where
  | str (s : String)
  | fls
  deriving DecidableEq

/-- The static auth properties carried by a component type. -/
structure ElemType where
  authenticate : Option AuthValue
  redirectAuthenticatedTo : Option RedirectValue
  deriving DecidableEq

/-- A rendered element: its component type and its `props.children` chain
(the walk follows a single child at a time). -/
inductive Element where
  | mk (ty : ElemType) (children : Option Element)

/-- The component type of an element (`element.type`). -/
def Element.ty : Element → ElemType
  | .mk t _ => t

/-- A `BlitzPage`: its own static auth properties, and the element its
`getLayout` returns (`none` models both a missing `getLayout` and a falsy
result). -/
structure PageDef where
  authenticate : Option AuthValue
  redirectAuthenticatedTo : Option RedirectValue
  getLayout : Option Element

/-- The `while (true)` loop of `getAuthValues` (lines 281-296), exactly as
written: the inspected `type` is `layout.type` — the type of the root
layout element — on every iteration, while `currentElement` only walks the
`props.children` chain and controls termination. -/
def getAuthValuesLoop (layoutTy : ElemType) :
    Element → Option AuthValue × Option RedirectValue
  | .mk _ children =>
    if layoutTy.authenticate.isSome || layoutTy.redirectAuthenticatedTo.isSome then
      (layoutTy.authenticate, layoutTy.redirectAuthenticatedTo)
    else
      match children with
      | some c => getAuthValuesLoop layoutTy c
      | none => (none, none)

/-- `getAuthValues` (lines 268-301): the own properties of a page win; only when
both are `undefined` is the returned layout consulted. -/
def getAuthValues (page : PageDef) : Option AuthValue × Option RedirectValue :=
  if page.authenticate.isNone ∧ page.redirectAuthenticatedTo.isNone then
    match page.getLayout with
    | some layout => getAuthValuesLoop layout.ty layout
    | none => (page.authenticate, page.redirectAuthenticatedTo)
  else
    (page.authenticate, page.redirectAuthenticatedTo)

/-- Modelled from the spec: the intended lookup "walks the returned
element single-child chain looking for the first element whose type
carries either property, and adopts the rules of that element (stop at the
first found, or at a childless element)".  Unlike the loop in the source, each
visited element has its own type is inspected. -/
def getAuthValuesSpecLoop : Element → Option AuthValue × Option RedirectValue
  | .mk ty children =>
    if ty.authenticate.isSome || ty.redirectAuthenticatedTo.isSome then
      (ty.authenticate, ty.redirectAuthenticatedTo)
    else
      match children with
      | some c => getAuthValuesSpecLoop c
      | none => (none, none)

/-- Modelled from the spec: `getAuthValues` with the intended walk. -/
def getAuthValuesSpec (page : PageDef) : Option AuthValue × Option RedirectValue :=
  if page.authenticate.isNone ∧ page.redirectAuthenticatedTo.isNone then
    match page.getLayout with
    | some layout => getAuthValuesSpecLoop layout
    | none => (page.authenticate, page.redirectAuthenticatedTo)
  else
    (page.authenticate, page.redirectAuthenticatedTo)

/-! ## Claim theorems -/

theorem jsonParse_notJson : jsonParse "not json" = none := by rfl

theorem toBase64_notJson_ne_empty : toBase64 "not json" ≠ "" := by decide

/-- Decoding the base64 of the non-JSON text `"not json"` fails, and the
error message carries the raw decoded string. -/
theorem parsePublicDataToken_notJson :
    parsePublicDataToken (toBase64 "not json")
      = .error ("[parsePublicDataToken] Failed to parse publicDataStr: " ++ "not json") := by
  rw [parsePublicDataToken]
  rw [if_neg toBase64_notJson_ne_empty, fromBase64_toBase64]
  simp [jsonParse_notJson]

/-- Claim C5: for every `PublicData` record `pd`, decoding the base64
encoding of the JSON serialization of `pd` returns `pd`: the decoded
JavaScript value is exactly the object value of `pd`, and reading the
record back off that value yields `pd` again. -/
theorem claim_C5_decode_encode (pd : PublicData) :
    parsePublicDataToken (encodePublicData pd) = .ok (publicDataToJson pd)
    ∧ jsonToPublicData (publicDataToJson pd) = some pd :=
  ⟨parsePublicDataToken_encodePublicData pd, jsonToPublicData_publicDataToJson pd⟩

/-- Claim C6: `decode("")` and `decode(base64("not json"))` both fail with a
decode error.  The JSON-failure message contains the raw decoded string
(`"not json"`, visible as the final `++` component); in the empty-input
case the `assert` fires before any decoding, and the raw decoded string —
`fromBase64 "" = ""` — is trivially contained in its message. -/
theorem claim_C6_decode_failures :
    parsePublicDataToken "" = .error "[parsePublicDataToken] Failed: token is empty"
    ∧ parsePublicDataToken (toBase64 "not json")
        = .error ("[parsePublicDataToken] Failed to parse publicDataStr: " ++ "not json")
    ∧ fromBase64 "" = .ok "" :=
  ⟨rfl, parsePublicDataToken_notJson, rfl⟩

/-- Claim C2: the session-token read follows the dual-storage policy.  With
a truthy cookie value `a`, the read returns `a` and writes it through to
the durable mirror; with the cookie absent, it returns whatever durable
storage holds (here `b`) and leaves the world unchanged (no write-back). -/
theorem claim_C2_dual_storage_read (w : World) (a b : String)
    (hava : w.lsAvailable = true) :
    (readCookie COOKIE_PUBLIC_DATA_TOKEN w = some a → a ≠ "" →
      getToken w = (some a, { w with ls := kvSet LOCALSTORAGE_PUBLIC_DATA_TOKEN a w.ls }))
    ∧ (readCookie COOKIE_PUBLIC_DATA_TOKEN w = none →
        kvGet LOCALSTORAGE_PUBLIC_DATA_TOKEN w.ls = some b →
        getToken w = (some b, w)) := by
  constructor
  · intro hc hane
    rw [getToken]
    simp [hc, jsTruthyStr, hane, lsSetItem, hava]
  · intro hc hb
    rw [getToken]
    simp [hc, jsTruthyStr, lsGetItem, hava, hb]

theorem claim_C2_witness :
    getToken ⟨[(COOKIE_PUBLIC_DATA_TOKEN, "A")], [(LOCALSTORAGE_PUBLIC_DATA_TOKEN, "B")], true⟩
        = (some "A",
          { cookies := [(COOKIE_PUBLIC_DATA_TOKEN, "A")],
            ls := kvSet LOCALSTORAGE_PUBLIC_DATA_TOKEN "A" [(LOCALSTORAGE_PUBLIC_DATA_TOKEN, "B")],
            lsAvailable := true })
    ∧ getToken ⟨[], [(LOCALSTORAGE_PUBLIC_DATA_TOKEN, "B")], true⟩
        = (some "B", ⟨[], [(LOCALSTORAGE_PUBLIC_DATA_TOKEN, "B")], true⟩) :=
  ⟨(claim_C2_dual_storage_read
      ⟨[(COOKIE_PUBLIC_DATA_TOKEN, "A")], [(LOCALSTORAGE_PUBLIC_DATA_TOKEN, "B")], true⟩
      "A" "B" rfl).1 rfl (by decide),
   (claim_C2_dual_storage_read
      ⟨[], [(LOCALSTORAGE_PUBLIC_DATA_TOKEN, "B")], true⟩
      "A" "B" rfl).2 rfl rfl⟩

/-- Claim C4: `getData` returns EmptyPublicData whenever no (truthy) session
token is readable, and when a token is readable but malformed the decode
failure propagates to the caller as the same error rather than being
converted into EmptyPublicData. -/
theorem claim_C4_getData (w : World) :
    (jsTruthyStr (getToken w).1 = false →
      getData w = (.ok emptyPublicDataJson, (getToken w).2))
    ∧ (∀ tok e, (getToken w).1 = some tok → tok ≠ "" →
        parsePublicDataToken tok = .error e →
        getData w = (.error e, (getToken w).2)) := by
  constructor
  · intro h
    rw [getData]
    simp [h]
  · intro tok e htok hne hparse
    rw [getData]
    simp [htok, jsTruthyStr, hne, hparse]

theorem claim_C4_witness :
    getData ⟨[], [], true⟩ = (.ok emptyPublicDataJson, ⟨[], [], true⟩)
    ∧ getData ⟨[(COOKIE_PUBLIC_DATA_TOKEN, toBase64 "not json")], [], true⟩
        = (.error ("[parsePublicDataToken] Failed to parse publicDataStr: " ++ "not json"),
          (getToken ⟨[(COOKIE_PUBLIC_DATA_TOKEN, toBase64 "not json")], [], true⟩).2) :=
  ⟨(claim_C4_getData ⟨[], [], true⟩).1 rfl,
   (claim_C4_getData ⟨[(COOKIE_PUBLIC_DATA_TOKEN, toBase64 "not json")], [], true⟩).2
      (toBase64 "not json") _ rfl toBase64_notJson_ne_empty parsePublicDataToken_notJson⟩

/-- Claim C7 (counterexample): with localStorage unavailable and the CSRF
cookie absent, `getAntiCSRFToken` propagates the storage exception to the
caller, contradicting "none of these operations ever propagates a storage
exception". -/
theorem claim_C7_counterexample :
    getAntiCSRFToken ⟨[], [], false⟩ = .error "LocalStorage is not available" := rfl

/-- Claim C7 (amended): when the storage medium is unavailable, the
session-token read degrades to absent and never throws (its body is inside
`try`/`catch`), but the CSRF-token read propagates the storage exception
whenever the CSRF cookie is absent, and the CSRF backup propagates it
whenever the cookie is present — neither has a `try`/`catch`. -/
theorem claim_C7_amended (w : World) (h : w.lsAvailable = false) :
    getToken w = (none, w)
    ∧ (jsTruthyStr (readCookie COOKIE_CSRF_TOKEN w) = true →
        getAntiCSRFToken w = .ok (readCookie COOKIE_CSRF_TOKEN w)
        ∧ backupAntiCSRFTokenToLocalStorage w = .error "LocalStorage is not available")
    ∧ (jsTruthyStr (readCookie COOKIE_CSRF_TOKEN w) = false →
        getAntiCSRFToken w = .error "LocalStorage is not available"
        ∧ backupAntiCSRFTokenToLocalStorage w = .ok w) := by
  refine ⟨?_, ?_, ?_⟩
  · rw [getToken]
    by_cases hc : jsTruthyStr (readCookie COOKIE_PUBLIC_DATA_TOKEN w) <;>
      simp [hc, lsSetItem, lsGetItem, h]
  · intro hc
    constructor <;>
      simp [getAntiCSRFToken, backupAntiCSRFTokenToLocalStorage, hc, lsSetItem, h]
  · intro hc
    constructor <;>
      simp [getAntiCSRFToken, backupAntiCSRFTokenToLocalStorage, hc, lsGetItem, h]

theorem claim_C7_amended_witness :
    getToken ⟨[(COOKIE_CSRF_TOKEN, "csrf")], [], false⟩
        = (none, ⟨[(COOKIE_CSRF_TOKEN, "csrf")], [], false⟩)
    ∧ backupAntiCSRFTokenToLocalStorage ⟨[(COOKIE_CSRF_TOKEN, "csrf")], [], false⟩
        = .error "LocalStorage is not available"
    ∧ getAntiCSRFToken ⟨[], [], false⟩ = .error "LocalStorage is not available" :=
  ⟨(claim_C7_amended ⟨[(COOKIE_CSRF_TOKEN, "csrf")], [], false⟩ rfl).1,
   ((claim_C7_amended ⟨[(COOKIE_CSRF_TOKEN, "csrf")], [], false⟩ rfl).2.1 rfl).2,
   ((claim_C7_amended ⟨[], [], false⟩ rfl).2.2 rfl).1⟩

theorem eventKey_ne_pdKey : eventKey ≠ LOCALSTORAGE_PUBLIC_DATA_TOKEN := by decide

/-- `clear` with localStorage available: cookie removed, mirror removed,
broadcast key written, empty value emitted, no error. -/
theorem clear_eq_of_available (s : StoreState) (now : Nat)
    (h : s.world.lsAvailable = true) :
    clear s now =
      ({ world := { cookies := kvRemove COOKIE_PUBLIC_DATA_TOKEN s.world.cookies,
                    ls := kvSet eventKey (toString now)
                      (kvRemove LOCALSTORAGE_PUBLIC_DATA_TOKEN s.world.ls),
                    lsAvailable := s.world.lsAvailable },
         subscribers := s.subscribers,
         log := s.log ++ s.subscribers.map (fun i => (i, emptyPublicDataJson)) }, none) := by
  rw [clear, updateState]
  simp [deleteCookie, lsRemoveItem, lsSetItem, h, emit]

/-- `clear` with localStorage unavailable: the cookie is still removed and
the empty value still emitted; the storage writes are swallowed. -/
theorem clear_eq_of_unavailable (s : StoreState) (now : Nat)
    (h : s.world.lsAvailable = false) :
    clear s now =
      ({ world := { cookies := kvRemove COOKIE_PUBLIC_DATA_TOKEN s.world.cookies,
                    ls := s.world.ls,
                    lsAvailable := s.world.lsAvailable },
         subscribers := s.subscribers,
         log := s.log ++ s.subscribers.map (fun i => (i, emptyPublicDataJson)) }, none) := by
  rw [clear, updateState]
  simp [deleteCookie, lsRemoveItem, lsSetItem, h, emit]

/-- Claim C1: for every store state and any registered subscribers,
`clear()` returns without throwing, deletes the session cookie, deletes the
durable-storage mirror (whenever durable storage is accessible at all), a
subsequent `getData()` returns EmptyPublicData, and exactly one
notification carrying EmptyPublicData is delivered per registration of each
subscriber (so a subscriber registered once receives exactly one). -/
theorem claim_C1_clear (s : StoreState) (now : Nat) :
    (clear s now).2 = none
    ∧ readCookie COOKIE_PUBLIC_DATA_TOKEN (clear s now).1.world = none
    ∧ (s.world.lsAvailable = true →
        kvGet LOCALSTORAGE_PUBLIC_DATA_TOKEN (clear s now).1.world.ls = none)
    ∧ (getData (clear s now).1.world).1 = .ok emptyPublicDataJson
    ∧ (clear s now).1.log = s.log ++ s.subscribers.map (fun i => (i, emptyPublicDataJson))
    ∧ (∀ i : Nat, ((clear s now).1.log.drop s.log.length).countP (fun e => e.1 == i)
        = s.subscribers.countP (fun j => j == i))
    ∧ (∀ e ∈ (clear s now).1.log.drop s.log.length, e.2 = emptyPublicDataJson) := by
  cases hav : s.world.lsAvailable
  · rw [clear_eq_of_unavailable s now hav]
    refine ⟨rfl, ?_, ?_, ?_, ?_, ?_, ?_⟩
    · exact kvGet_kvRemove_self _ _
    · intro h
      exact absurd h Bool.false_ne_true
    · rw [getData, getToken]
      simp [readCookie, kvGet_kvRemove_self, jsTruthyStr, lsGetItem, hav]
    · rfl
    · intro i
      simp only [List.drop_left, List.countP_map]
      rfl
    · intro e he
      simp [List.drop_left] at he
      obtain ⟨j, hj, rfl⟩ := he
      rfl
  · rw [clear_eq_of_available s now hav]
    refine ⟨rfl, ?_, ?_, ?_, ?_, ?_, ?_⟩
    · exact kvGet_kvRemove_self _ _
    · intro _
      rw [kvGet_kvSet_ne _ _ _ _ eventKey_ne_pdKey]
      exact kvGet_kvRemove_self _ _
    · rw [getData, getToken]
      have hmir : kvGet LOCALSTORAGE_PUBLIC_DATA_TOKEN
          (kvSet eventKey (toString now)
            (kvRemove LOCALSTORAGE_PUBLIC_DATA_TOKEN s.world.ls)) = none := by
        rw [kvGet_kvSet_ne _ _ _ _ eventKey_ne_pdKey]
        exact kvGet_kvRemove_self _ _
      simp [readCookie, kvGet_kvRemove_self, jsTruthyStr, lsGetItem, hav, hmir]
    · rfl
    · intro i
      simp only [List.drop_left, List.countP_map]
      rfl
    · intro e he
      simp [List.drop_left] at he
      obtain ⟨j, hj, rfl⟩ := he
      rfl

theorem claim_C1_witness :
    (⟨⟨[(COOKIE_PUBLIC_DATA_TOKEN, "tok")], [(LOCALSTORAGE_PUBLIC_DATA_TOKEN, "tok")], true⟩,
        [7], []⟩ : StoreState).world.lsAvailable = true
    ∧ kvGet LOCALSTORAGE_PUBLIC_DATA_TOKEN
        (clear ⟨⟨[(COOKIE_PUBLIC_DATA_TOKEN, "tok")],
          [(LOCALSTORAGE_PUBLIC_DATA_TOKEN, "tok")], true⟩, [7], []⟩ 5).1.world.ls = none
    ∧ ((clear ⟨⟨[(COOKIE_PUBLIC_DATA_TOKEN, "tok")],
          [(LOCALSTORAGE_PUBLIC_DATA_TOKEN, "tok")], true⟩, [7], []⟩ 5).1.log.drop
            ([] : List (Nat × Json)).length).countP (fun e => e.1 == 7) = 1 :=
  ⟨rfl,
   (claim_C1_clear ⟨⟨[(COOKIE_PUBLIC_DATA_TOKEN, "tok")],
      [(LOCALSTORAGE_PUBLIC_DATA_TOKEN, "tok")], true⟩, [7], []⟩ 5).2.2.1 rfl,
   ((claim_C1_clear ⟨⟨[(COOKIE_PUBLIC_DATA_TOKEN, "tok")],
      [(LOCALSTORAGE_PUBLIC_DATA_TOKEN, "tok")], true⟩, [7], []⟩ 5).2.2.2.2.2.1 7).trans
      (by decide)⟩

/-- Claim C3: `updateState(value, {suppressEvent:true})` notifies local
subscribers and leaves the broadcast key — indeed the whole world —
unchanged; `updateState(value)` with no options notifies local subscribers
and writes the clock reading into the broadcast key, a value strictly
greater than the previously stored one whenever the clock has advanced past
it (the source stores `Date.now()`, so strict growth of the stored value is
exactly strict growth of the clock). -/
theorem claim_C3_updateState (s : StoreState) (v : Json) (now prev : Nat) :
    (updateState s (some v) true now
        = ({ s with log := s.log ++ s.subscribers.map (fun i => (i, v)) }, none))
    ∧ (s.world.lsAvailable = true →
        kvGet eventKey s.world.ls = some (toString prev) →
        prev < now →
        kvGet eventKey (updateState s (some v) false now).1.world.ls = some (toString now)
        ∧ (updateState s (some v) false now).1.log
            = s.log ++ s.subscribers.map (fun i => (i, v))
        ∧ prev < now) := by
  constructor
  · rw [updateState]
    simp [emit]
  · intro hav hprev hlt
    refine ⟨?_, ?_, hlt⟩
    · rw [updateState]
      simp [lsSetItem, hav, emit, kvGet_kvSet_self]
    · rw [updateState]
      simp [lsSetItem, hav, emit]

theorem claim_C3_witness :
    kvGet eventKey (updateState ⟨⟨[], [(eventKey, toString 3)], true⟩, [1], []⟩
        (some Json.null) false 4).1.world.ls = some (toString 4)
    ∧ (updateState ⟨⟨[], [(eventKey, toString 3)], true⟩, [1], []⟩
        (some Json.null) false 4).1.log
      = ([] : List (Nat × Json)) ++ [1].map (fun i => (i, Json.null)) :=
  ⟨((claim_C3_updateState ⟨⟨[], [(eventKey, toString 3)], true⟩, [1], []⟩
      Json.null 4 3).2 rfl rfl (by omega)).1,
   ((claim_C3_updateState ⟨⟨[], [(eventKey, toString 3)], true⟩, [1], []⟩
      Json.null 4 3).2 rfl rfl (by omega)).2.1⟩

/-- Claim C10 (counterexample): subscriber 0 is registered and
`updateState` is called with the value omitted; the broadcast-key write
succeeds, but the recompute throws on the malformed session token, so zero
notifications are delivered — contradicting "for every call to updateState,
local subscribers receive exactly one notification". -/
theorem claim_C10_counterexample :
    (updateState ⟨⟨[(COOKIE_PUBLIC_DATA_TOKEN, toBase64 "not json")], [], true⟩, [0], []⟩
        none false 0).1.log = []
    ∧ (updateState ⟨⟨[(COOKIE_PUBLIC_DATA_TOKEN, toBase64 "not json")], [], true⟩, [0], []⟩
        none false 0).2
      = some ("[parsePublicDataToken] Failed to parse publicDataStr: " ++ "not json") := by
  constructor <;> rfl

/-- The broadcast-key write changes no other key, so it cannot change what
a subsequent token read returns. -/
theorem getToken_fst_after_eventKey_write (w : World) (t : String) :
    (getToken { w with ls := kvSet eventKey t w.ls }).1 = (getToken w).1 := by
  rw [getToken, getToken]
  by_cases hc : jsTruthyStr (kvGet COOKIE_PUBLIC_DATA_TOKEN w.cookies) <;>
    cases hav : w.lsAvailable <;>
      simp [readCookie, hc, hav, lsSetItem, lsGetItem,
        kvGet_kvSet_ne _ _ _ _ eventKey_ne_pdKey]

/-- The broadcast-key write cannot change the outcome of a recompute: the
value (or error) `getData` produces is the same before and after it. -/
theorem getData_fst_after_eventKey_write (w : World) (t : String) :
    (getData { w with ls := kvSet eventKey t w.ls }).1 = (getData w).1 := by
  have h := getToken_fst_after_eventKey_write w t
  simp only [getData]
  rw [h]
  by_cases hc : jsTruthyStr (getToken w).1
  · simp only [hc, if_true]
    rcases hp : parsePublicDataToken ((getToken w).1.getD "") with e | j <;> simp [hp]
  · simp [hc]

/-- Claim C10 (amended): with a supplied value — whatever the options and
storage availability — every registered subscriber receives exactly one
notification with that value and the call returns normally.  With the value
omitted, whenever the recompute succeeds — `getData()` on the current world
returns `j` — every registered subscriber receives exactly one notification
with the freshly recomputed `j` and the call returns normally, whether or
not the broadcast-key write succeeded (that write only touches the
broadcast key, so it cannot change the recompute).  In particular, with
durable storage unavailable — the case in which the broadcast write fails —
the recompute yields EmptyPublicData and is emitted exactly once: a storage
failure during the broadcast write never prevents the local emission.  Only
a decode failure during an omitted-value recompute — a non-storage failure
— skips the emission (see the counterexample). -/
theorem claim_C10_amended (s : StoreState) (v : Json) (supp : Bool) (now : Nat) :
    ((updateState s (some v) supp now).1.log
        = s.log ++ s.subscribers.map (fun i => (i, v))
      ∧ (updateState s (some v) supp now).2 = none)
    ∧ (∀ j : Json, (getData s.world).1 = .ok j →
        (updateState s none false now).1.log
          = s.log ++ s.subscribers.map (fun i => (i, j))
        ∧ (updateState s none false now).2 = none)
    ∧ (s.world.lsAvailable = false →
        (updateState s none false now).1.log
          = s.log ++ s.subscribers.map (fun i => (i, emptyPublicDataJson))
        ∧ (updateState s none false now).2 = none) := by
  refine ⟨?_, ?_, ?_⟩
  · rw [updateState]
    cases supp
    · cases hav : s.world.lsAvailable <;> simp [lsSetItem, hav, emit]
    · simp [emit]
  · intro j hj
    rw [updateState]
    cases hav : s.world.lsAvailable
    · simp only [lsSetItem, hav, Bool.false_eq_true, if_false]
      rcases hgd : getData s.world with ⟨r, w2⟩
      rw [hgd] at hj
      have hr : r = .ok j := hj
      subst hr
      simp [hgd, emit]
    · simp only [lsSetItem, hav, if_true]
      have h2 := getData_fst_after_eventKey_write s.world (toString now)
      rw [hav] at h2
      rcases hgd : getData ⟨s.world.cookies, kvSet eventKey (toString now) s.world.ls, true⟩
        with ⟨r, w2⟩
      rw [hgd] at h2
      have hr : r = .ok j := h2.trans hj
      subst hr
      simp [hgd, emit]
  · intro hav
    rw [updateState]
    constructor <;>
    · simp only [lsSetItem, hav, Bool.false_eq_true, if_false]
      rw [getData, getToken]
      by_cases hc : jsTruthyStr (readCookie COOKIE_PUBLIC_DATA_TOKEN s.world) <;>
        simp [hc, lsSetItem, lsGetItem, hav, jsTruthyStr, emit]

theorem claim_C10_witness :
    (getData (⟨[(COOKIE_PUBLIC_DATA_TOKEN, encodePublicData ⟨some 1, some "admin"⟩)],
        [], true⟩ : World)).1
      = .ok (publicDataToJson ⟨some 1, some "admin"⟩)
    ∧ ((updateState ⟨⟨[(COOKIE_PUBLIC_DATA_TOKEN, encodePublicData ⟨some 1, some "admin"⟩)],
          [], true⟩, [3], []⟩ none false 9).1.log
        = ([] : List (Nat × Json))
            ++ [3].map (fun i => (i, publicDataToJson ⟨some 1, some "admin"⟩))
      ∧ (updateState ⟨⟨[(COOKIE_PUBLIC_DATA_TOKEN, encodePublicData ⟨some 1, some "admin"⟩)],
          [], true⟩, [3], []⟩ none false 9).2 = none)
    ∧ ((updateState ⟨⟨[], [], false⟩, [3], []⟩ none false 9).1.log
        = ([] : List (Nat × Json)) ++ [3].map (fun i => (i, emptyPublicDataJson))
      ∧ (updateState ⟨⟨[], [], false⟩, [3], []⟩ none false 9).2 = none) :=
  ⟨rfl,
   (claim_C10_amended ⟨⟨[(COOKIE_PUBLIC_DATA_TOKEN, encodePublicData ⟨some 1, some "admin"⟩)],
      [], true⟩, [3], []⟩ Json.null false 9).2.1
     (publicDataToJson ⟨some 1, some "admin"⟩) rfl,
   (claim_C10_amended ⟨⟨[], [], false⟩, [3], []⟩ Json.null false 9).2.2 rfl⟩

/-- Claim C8 (code bug): take a page with neither property, whose layout
root element carries neither property, but whose single child has a type
carrying `authenticate = true`.  The loop in the source reads `layout.type`
— the type of the root — on every iteration (`currentElement` only drives
termination), so it walks to the childless end and adopts nothing,
returning no rules; the walk described by the spec adopts the child value
`authenticate = true`. -/
theorem claim_C8_layout_walk_bug :
    getAuthValues
        ⟨none, none, some (.mk ⟨none, none⟩ (some (.mk ⟨some (.bool true), none⟩ none)))⟩
      = (none, none)
    ∧ getAuthValuesSpec
        ⟨none, none, some (.mk ⟨none, none⟩ (some (.mk ⟨some (.bool true), none⟩ none)))⟩
      = (some (.bool true), none) := by
  constructor <;> rfl

/-- A client context whose session cookie holds a freshly encoded token for
the record `pd` and whose localStorage starts as given. -/
def mkSessionWorld (pd : PublicData) : World :=
  ⟨[(COOKIE_PUBLIC_DATA_TOKEN, encodePublicData pd)], [], true⟩

/-- `getData` on a world whose session cookie holds a fresh token for `pd`:
the decoded object value of `pd`, with the token written through to the
durable mirror. -/
theorem getData_session (pd : PublicData) (ls : List (String × String)) :
    getData ⟨[(COOKIE_PUBLIC_DATA_TOKEN, encodePublicData pd)], ls, true⟩
      = (.ok (publicDataToJson pd),
         ⟨[(COOKIE_PUBLIC_DATA_TOKEN, encodePublicData pd)],
          kvSet LOCALSTORAGE_PUBLIC_DATA_TOKEN (encodePublicData pd) ls, true⟩) := by
  have ht : jsTruthyStr (some (encodePublicData pd)) = true := by
    simp [jsTruthyStr, encodePublicData_ne_empty pd]
  rw [getData, getToken]
  simp [readCookie, kvGet, ht, lsSetItem, parsePublicDataToken_encodePublicData pd]

theorem getField_userId (pd : PublicData) :
    (publicDataToJson pd).getField "userId"
      = some (match pd.userId with | some n => Json.num n | none => Json.null) := by
  rw [publicDataToJson, Json.getField]
  simp [lookupField]

theorem getField_role (pd : PublicData) :
    (publicDataToJson pd).getField "role"
      = some (match pd.role with | some s => Json.str s | none => Json.null) := by
  rw [publicDataToJson, Json.getField]
  simp [lookupField]

/-- Claim C9 (counterexample): `authenticate={role:"admin"}`, component
mounted, session role `"admin"` but `userId` null — the gate raises an
authentication-denied fault (the userId check fires first), contradicting
the unconditional "no fault is raised" of the claim for the role-match
scenario. -/
theorem claim_C9_counterexample :
    (useAuthorizeIf ⟨[(COOKIE_PUBLIC_DATA_TOKEN, encodePublicData ⟨none, some "admin"⟩)],
        [], true⟩ true (some (.one "admin")) true).map Prod.fst
      = .ok (some .authenticationError) := by rfl

/-- Claim C9 (amended): for a mounted component on the client whose session
was read back from a stored token for the record `pd`: with
`authenticate=true` and no `userId`, an authentication-denied fault is
raised; with `authenticate={role:"admin"}` and session role `"user"`, an
authentication-denied fault is raised whatever the `userId`; with
`authenticate={role:"admin"}`, session role `"admin"` *and a truthy
`userId` present* (the amendment), no fault is raised — with `userId` null
the first check already denies, as the counterexample shows. -/
theorem claim_C9_amended (pd : PublicData) :
    (pd.userId = none →
      (useAuthorizeIf (mkSessionWorld pd) true none true).map Prod.fst
        = .ok (some .authenticationError))
    ∧ (pd.role = some "user" →
        (useAuthorizeIf (mkSessionWorld pd) true (some (.one "admin")) true).map Prod.fst
          = .ok (some .authenticationError))
    ∧ (∀ u, pd.userId = some u → u ≠ 0 → pd.role = some "admin" →
        (useAuthorizeIf (mkSessionWorld pd) true (some (.one "admin")) true).map Prod.fst
          = .ok none) := by
  have hsim := getData_session pd
  refine ⟨?_, ?_, ?_⟩
  · intro hu
    simp only [useAuthorizeIf, mkSessionWorld, hsim, getField_userId pd, hu,
      if_true]
    simp [jsTruthyJson, roleTruthy, Except.map]
  · intro hr
    cases hu : pd.userId with
    | none =>
      simp only [useAuthorizeIf, mkSessionWorld, hsim, getField_userId pd, hu, if_true]
      simp [jsTruthyJson, roleTruthy, Except.map]
    | some u =>
      by_cases hu0 : u = 0
      · subst hu0
        simp only [useAuthorizeIf, mkSessionWorld, hsim, getField_userId pd, hu, if_true]
        simp [jsTruthyJson, roleTruthy, Except.map]
      · simp only [useAuthorizeIf, mkSessionWorld, hsim, getField_userId pd,
          getField_role pd, hu, hr, if_true]
        simp [jsTruthyJson, roleTruthy, authorizeRole, hu0, Except.map]
  · intro u hu hu0 hr
    simp only [useAuthorizeIf, mkSessionWorld, hsim, getField_userId pd,
      getField_role pd, hu, hr, if_true]
    simp [jsTruthyJson, roleTruthy, authorizeRole, hu0, Except.map]

theorem claim_C9_amended_witness :
    ((⟨none, some "x"⟩ : PublicData).userId = none
      ∧ (useAuthorizeIf (mkSessionWorld ⟨none, some "x"⟩) true none true).map Prod.fst
          = .ok (some .authenticationError))
    ∧ ((⟨some 1, some "user"⟩ : PublicData).role = some "user"
      ∧ (useAuthorizeIf (mkSessionWorld ⟨some 1, some "user"⟩) true
            (some (.one "admin")) true).map Prod.fst
          = .ok (some .authenticationError))
    ∧ ((⟨some 1, some "admin"⟩ : PublicData).userId = some 1
      ∧ (useAuthorizeIf (mkSessionWorld ⟨some 1, some "admin"⟩) true
            (some (.one "admin")) true).map Prod.fst
          = .ok none) :=
  ⟨⟨rfl, (claim_C9_amended ⟨none, some "x"⟩).1 rfl⟩,
   ⟨rfl, (claim_C9_amended ⟨some 1, some "user"⟩).2.1 rfl⟩,
   ⟨rfl, (claim_C9_amended ⟨some 1, some "admin"⟩).2.2 1 rfl (by decide) rfl⟩⟩
